import Mathlib

/-!
Verification of the `MCD` outlier detector of `pyod/models/mcd.py` against its
natural-language specification.

The wrapper in `mcd.py` composes three collaborators: sklearn's `MinCovDet`
robust covariance estimator, sklearn's `check_array` / `check_is_fitted`
input validators, and `BaseDetector` (`_process_decision_scores`).  Only
`mcd.py` itself is in the sources; the collaborators are modelled from the
specification, each with a doc comment saying so.  Reals are embedded as
rationals; Python float arrays that may carry NaN/Inf are embedded as lists of
`PyFloat`; raised Python exceptions are embedded as `Except PyError`.
-/

deriving instance DecidableEq for Except

namespace Pyod

/-- Error taxonomy of the specification (section 7): each constructor stands
for one distinct catchable failure condition surfaced to the caller. -/
inductive PyError where
  | invalidParameter
  | invalidInput
  | singularMatrix
  | notFitted
  | dimensionMismatch
deriving DecidableEq

/-- A Python float entry of an input array: either a finite numeric value
(embedded as a rational) or one of the non-finite IEEE values that
`check_array` must reject. -/
inductive PyFloat where
  | finite (q : ℚ)
  | nan
  | inf
  | ninf
deriving DecidableEq

/-- `true` exactly on finite numeric entries. -/
def PyFloat.isFinite : PyFloat → Bool
  | .finite _ => true
  | _ => false

/-- The rational value of a finite entry (0 on non-finite ones; only applied
after `check_array` has accepted the array). -/
def PyFloat.toRat : PyFloat → ℚ
  | .finite q => q
  | _ => 0

/-- Modelled from the spec: sklearn's `check_array`, called first by both
`MCD.fit` and `MCD.decision_function` (spec section 4.4: "validates X is a 2D
numeric array with no NaN/Inf (`InvalidInput` otherwise)").  A valid input is
a nonempty rectangular list of nonempty rows whose entries are all finite;
anything else is rejected with `InvalidInput`. -/
def check_array (X : List (List PyFloat)) : Except PyError (List (List ℚ)) :=
  if 0 < X.length ∧ 0 < (X.headD []).length ∧
      (∀ row ∈ X, row.length = (X.headD []).length) ∧
      (∀ row ∈ X, ∀ v ∈ row, v.isFinite = true) then
    .ok (X.map (fun row => row.map PyFloat.toRat))
  else
    .error .invalidInput

/-- Dot product of two vectors (rows), as numpy computes it. -/
def dot (x y : List ℚ) : ℚ := (List.zipWith (fun a b => a * b) x y).sum

/-- Matrix-vector product. -/
def matVec (M : List (List ℚ)) (v : List ℚ) : List ℚ := M.map (fun row => dot row v)

/-- Entrywise difference of two vectors. -/
def rowSub (x y : List ℚ) : List ℚ := List.zipWith (fun a b => a - b) x y

/-- Quadratic form `vᵀ M v`. -/
def quadForm (M : List (List ℚ)) (v : List ℚ) : ℚ := dot v (matVec M v)

/-- Modelled from the spec (section 4.2, MahalanobisScorer): squared
Mahalanobis distance `(x - location)ᵀ · precision · (x - location)` of one
point, the scoring function that sklearn's `mahalanobis` applies per row. -/
def mahalanobis (x location : List ℚ) (precision : List (List ℚ)) : ℚ :=
  quadForm precision (rowSub x location)

/-- A matrix is positive definite on vectors of length `p` when the quadratic
form is strictly positive away from the zero vector (the form the spec's
"covariance nonsingular" hypothesis takes for a covariance inverse). -/
def PosDefMat (p : ℕ) (M : List (List ℚ)) : Prop :=
  ∀ v : List ℚ, v.length = p → v ≠ List.replicate p 0 → 0 < quadForm M v

/-- Multiply every entry of a row by `c`. -/
def scaleRow (c : ℚ) (r : List ℚ) : List ℚ := r.map (fun a => c * a)

/-- Swap two rows of a matrix. -/
def swapRows (rows : List (List ℚ)) (i j : ℕ) : List (List ℚ) :=
  let ri := rows.getD i []
  let rj := rows.getD j []
  (rows.set i rj).set j ri

/-- One column-elimination step of Gauss-Jordan: pick a pivot row at or below
`col` with a nonzero entry in column `col` (none means the matrix is
singular), normalise it, and clear column `col` from every other row. -/
def elimCol (rows : List (List ℚ)) (col : ℕ) : Option (List (List ℚ)) :=
  match (rows.drop col).findIdx? (fun r => decide (r.getD col 0 ≠ 0)) with
  | none => none
  | some k =>
    let rows1 := swapRows rows col (col + k)
    let pv := (rows1.getD col []).getD col 0
    let prow := scaleRow (1 / pv) (rows1.getD col [])
    some ((rows1.set col prow).mapIdx (fun j r =>
      if j = col then r else rowSub r (scaleRow (r.getD col 0) prow)))

/-- Full Gauss-Jordan elimination over the first `p` columns; `none` when a
pivot is missing, i.e. the left `p` columns are singular. -/
def gaussJordan (p : ℕ) (rows : List (List ℚ)) : Option (List (List ℚ)) :=
  (List.range p).foldl (fun acc col => acc.bind (fun rs => elimCol rs col)) (some rows)

/-- The `p`-by-`p` identity matrix. -/
def identityMat (p : ℕ) : List (List ℚ) :=
  (List.range p).map (fun i => (List.range p).map (fun j => if i = j then 1 else 0))

/-- Matrix inverse by Gauss-Jordan elimination of the matrix augmented with
the identity; `none` on a singular matrix. -/
def matInv (p : ℕ) (M : List (List ℚ)) : Option (List (List ℚ)) :=
  (gaussJordan p ((List.range p).map
      (fun i => M.getD i [] ++ (identityMat p).getD i []))).map
    (fun rs => rs.map (fun r => r.drop p))

/-- Mean of each of the first `p` coordinates over the sample rows. -/
def sampleMean (Xv : List (List ℚ)) (p : ℕ) : List ℚ :=
  (List.range p).map (fun j => (Xv.map (fun row => row.getD j 0)).sum / (Xv.length : ℚ))

/-- Empirical covariance matrix of the sample rows about `loc`. -/
def sampleCov (Xv : List (List ℚ)) (p : ℕ) (loc : List ℚ) : List (List ℚ) :=
  (List.range p).map (fun i => (List.range p).map (fun j =>
    (Xv.map (fun row =>
      (row.getD i 0 - loc.getD i 0) * (row.getD j 0 - loc.getD j 0))).sum
      / (Xv.length : ℚ)))

/-- The fitted attributes of a `MinCovDet` estimator, named after sklearn's
fitted attributes (`dist_` holds the squared Mahalanobis distances of the
training rows under the final location/precision). -/
structure FittedEstimator where
  n_features_in_ : ℕ
  raw_location_ : List ℚ
  raw_covariance_ : List (List ℚ)
  raw_support_ : List Bool
  location_ : List ℚ
  covariance_ : List (List ℚ)
  precision_ : List (List ℚ)
  support_ : List Bool
  dist_ : List ℚ
deriving DecidableEq

/-- The constructor arguments `mcd.py` forwards to sklearn's `MinCovDet`. -/
structure MinCovDet where
  store_precision : Bool
  assume_centered : Bool
  support_fraction : Option ℚ
  random_state : Option ℕ
deriving DecidableEq

/-- Modelled from the spec: sklearn's `MinCovDet.fit` is external to the
repository and the spec scopes its FastMCD subset search out (section 1);
what the claims rely on is its interface contract: it is a deterministic
function of the hyperparameters and the data (section 6: a pinned random
seed makes results reproducible; section 8), it fails with `SingularMatrix`
on a degenerate covariance (section 4.1 step 7), and `dist_` is the squared
Mahalanobis distance of every training row under the final corrected
location/precision (section 3, DecisionScore).  The estimation itself is
modelled by the empirical estimate on the full support (location = sample
mean unless `assume_centered`, covariance = empirical covariance, precision
= its inverse), which realises that contract. -/
def MinCovDet.fit (est : MinCovDet) (Xv : List (List ℚ)) :
    Except PyError FittedEstimator :=
  let p := (Xv.headD []).length
  let n := Xv.length
  let loc := if est.assume_centered then List.replicate p 0 else sampleMean Xv p
  let cov := sampleCov Xv p loc
  match matInv p cov with
  | none => .error .singularMatrix
  | some prec =>
    .ok ⟨p, loc, cov, List.replicate n true, loc, cov, prec, List.replicate n true,
      Xv.map (fun x => mahalanobis x loc prec)⟩

/-- Modelled from the spec: `BaseDetector._process_decision_scores` of
`pyod/models/base.py` is not among the sources.  Section 4.3: the threshold
is the value at the `ceil(n * (1 - contamination))`-th order statistic of
the training scores, and label i is 1 exactly when score i is strictly above
the threshold.  Returns the `(threshold_, labels_)` pair. -/
def process_decision_scores (scores : List ℚ) (contamination : ℚ) : ℚ × List ℕ :=
  let n := scores.length
  let k := (⌈(n : ℚ) * (1 - contamination)⌉).toNat
  let threshold := (List.insertionSort (fun a b => a ≤ b) scores).getD (k - 1) 0
  (threshold, scores.map (fun s => if threshold < s then 1 else 0))

/-- The state of one `MCD` instance: the five constructor hyperparameters plus
the four attributes `fit` assigns (`none` in the unfitted state). -/
structure MCD where
  contamination : ℚ
  store_precision : Bool
  assume_centered : Bool
  support_fraction : Option ℚ
  random_state : Option ℕ
  detector_ : Option FittedEstimator
  decision_scores_ : Option (List ℚ)
  threshold_ : Option ℚ
  labels_ : Option (List ℕ)
deriving DecidableEq

/-- `MCD.__init__`.  Modelled from the spec for the contamination range check:
`BaseDetector.__init__` (not among the sources) must reject a contamination
outside the open interval (0, 1/2) with `InvalidParameter` (sections 4.3 and
8).  A fresh instance starts with every fitted attribute absent. -/
def MCD.init (contamination : ℚ) (store_precision assume_centered : Bool)
    (support_fraction : Option ℚ) (random_state : Option ℕ) : Except PyError MCD :=
  if 0 < contamination ∧ contamination < 1 / 2 then
    .ok ⟨contamination, store_precision, assume_centered, support_fraction,
      random_state, none, none, none, none⟩
  else
    .error .invalidParameter

/-- `MCD.fit` (mcd.py lines 121-145): validate `X` with `check_array`, build a
fresh `MinCovDet` from the stored hyperparameters and fit it, store its
`dist_` as `decision_scores_`, then derive `threshold_` and `labels_` with
`_process_decision_scores`.  The optional `y` is informational only (it only
feeds `_set_n_classes`) and is omitted. -/
def MCD.fit (m : MCD) (X : List (List PyFloat)) : Except PyError MCD :=
  match check_array X with
  | .error e => .error e
  | .ok Xv =>
    match MinCovDet.fit
        ⟨m.store_precision, m.assume_centered, m.support_fraction, m.random_state⟩ Xv with
    | .error e => .error e
    | .ok det =>
      let scores := det.dist_
      let tl := process_decision_scores scores m.contamination
      .ok { m with
              detector_ := some det
              decision_scores_ := some scores
              threshold_ := some tl.1
              labels_ := some tl.2 }

/-- `MCD.decision_function` (mcd.py lines 147-152): `check_is_fitted` on
`decision_scores_`, `threshold_`, `labels_` (NotFitted unless all three are
present), `check_array` on `X`, then `detector_.mahalanobis(X)`.  The row
width check against the training dimensionality is the scorer's
`DimensionMismatch` contract of spec section 4.2 (it lives in the external
sklearn estimator). -/
def MCD.decision_function (m : MCD) (X : List (List PyFloat)) :
    Except PyError (List ℚ) :=
  match m.decision_scores_, m.threshold_, m.labels_ with
  | some _, some _, some _ =>
    match check_array X with
    | .error e => .error e
    | .ok Xv =>
      match m.detector_ with
      | none => .error .notFitted
      | some det =>
        if ∀ row ∈ Xv, row.length = det.n_features_in_ then
          .ok (Xv.map (fun x => mahalanobis x det.location_ det.precision_))
        else
          .error .dimensionMismatch
  | _, _, _ => .error .notFitted

/-- `MCD.raw_location_` property (mcd.py lines 154-161): forwards to the
delegate estimator; fails before `fit` because no delegate exists yet. -/
def MCD.raw_location_ (m : MCD) : Except PyError (List ℚ) :=
  match m.detector_ with
  | none => .error .notFitted
  | some det => .ok det.raw_location_

/-- `MCD.raw_covariance_` property (mcd.py lines 163-170). -/
def MCD.raw_covariance_ (m : MCD) : Except PyError (List (List ℚ)) :=
  match m.detector_ with
  | none => .error .notFitted
  | some det => .ok det.raw_covariance_

/-- `MCD.raw_support_` property (mcd.py lines 172-180). -/
def MCD.raw_support_ (m : MCD) : Except PyError (List Bool) :=
  match m.detector_ with
  | none => .error .notFitted
  | some det => .ok det.raw_support_

/-- `MCD.location_` property (mcd.py lines 182-188). -/
def MCD.location_ (m : MCD) : Except PyError (List ℚ) :=
  match m.detector_ with
  | none => .error .notFitted
  | some det => .ok det.location_

/-- `MCD.covariance_` property (mcd.py lines 190-196). -/
def MCD.covariance_ (m : MCD) : Except PyError (List (List ℚ)) :=
  match m.detector_ with
  | none => .error .notFitted
  | some det => .ok det.covariance_

/-- `MCD.precision_` property (mcd.py lines 198-205). -/
def MCD.precision_ (m : MCD) : Except PyError (List (List ℚ)) :=
  match m.detector_ with
  | none => .error .notFitted
  | some det => .ok det.precision_

/-- `MCD.support_` property (mcd.py lines 207-214). -/
def MCD.support_ (m : MCD) : Except PyError (List Bool) :=
  match m.detector_ with
  | none => .error .notFitted
  | some det => .ok det.support_

/-- Concrete training matrix used by the witnesses: three 1-dimensional
samples 0, 1, 5. -/
def Xfix : List (List PyFloat) := [[.finite 0], [.finite 1], [.finite 5]]

/-- A freshly constructed detector (contamination 1/10, defaults otherwise). -/
def m0 : MCD := ⟨1/10, true, false, none, none, none, none, none, none⟩

/-- The estimator state produced by fitting on `Xfix`: location 2, covariance
14/3, precision 3/14, per-sample squared Mahalanobis distances. -/
def detFix : FittedEstimator :=
  ⟨1, [2], [[14/3]], [true, true, true], [2], [[14/3]], [[3/14]], [true, true, true],
    [6/7, 3/14, 27/14]⟩

/-- The detector state after `m0.fit Xfix`. -/
def m1 : MCD :=
  ⟨1/10, true, false, none, none, some detFix, some [6/7, 3/14, 27/14],
    some (27/14), some [0, 0, 0]⟩

/-- A scoring input whose rows have two columns, not one. -/
def Xwide : List (List PyFloat) := [[.finite 1, .finite 2]]

/-- A scoring input carrying a NaN entry. -/
def Xbad : List (List PyFloat) := [[.nan]]

section Helpers

/-- On acceptance, `check_array` returns the entrywise rational values, and
the accepted matrix is nonempty and rectangular with nonempty rows. -/
theorem check_array_ok {X : List (List PyFloat)} {Xv : List (List ℚ)}
    (h : check_array X = .ok Xv) :
    Xv = X.map (fun row => row.map PyFloat.toRat) ∧ 0 < Xv.length ∧
      0 < (Xv.headD []).length ∧ ∀ row ∈ Xv, row.length = (Xv.headD []).length := by
  unfold check_array at h
  split at h
  case isFalse => exact absurd h (by simp)
  case isTrue hc =>
    obtain ⟨hn, hp, hrect, -⟩ := hc
    injection h with h
    subst h
    cases X with
    | nil => simp at hn
    | cons r t =>
      refine ⟨rfl, by simp, by simpa using hp, ?_⟩
      intro row hrow
      obtain ⟨orig, horig, rfl⟩ := List.mem_map.mp hrow
      simpa using hrect orig horig

/-- The only error `check_array` raises is `InvalidInput`. -/
theorem check_array_error {X : List (List PyFloat)} {e : PyError}
    (h : check_array X = .error e) : e = .invalidInput := by
  unfold check_array at h
  split at h
  · exact absurd h (by simp)
  · injection h with h
    exact h.symm

/-- A successful `MinCovDet.fit` records the training width as
`n_features_in_` and the training rows' squared Mahalanobis distances under
the final location/precision as `dist_`. -/
theorem MinCovDet.fit_ok {est : MinCovDet} {Xv : List (List ℚ)}
    {det : FittedEstimator} (h : MinCovDet.fit est Xv = .ok det) :
    det.n_features_in_ = (Xv.headD []).length ∧
      det.dist_ = Xv.map (fun x => mahalanobis x det.location_ det.precision_) := by
  unfold MinCovDet.fit at h
  split at h <;>
  · dsimp only [] at h
    split at h
    · exact absurd h (by simp)
    · injection h with h
      subst h
      exact ⟨rfl, rfl⟩

end Helpers

/-- C2: on an `MCD` instance on which `fit` has never been called (its state
is exactly the one `__init__` produced), `decision_function` fails with
`NotFitted` for every input, returning no scores. -/
theorem mcd_C2 (c : ℚ) (sp ac : Bool) (sf : Option ℚ) (rs : Option ℕ) (m : MCD)
    (h : MCD.init c sp ac sf rs = .ok m) (X : List (List PyFloat)) :
    MCD.decision_function m X = .error .notFitted := by
  unfold MCD.init at h
  split at h
  · injection h with h
    subst h
    rfl
  · exact absurd h (by simp)

/-- Witness for C2 at the concrete instance `m0` and input `Xfix`. -/
theorem mcd_C2_witness : MCD.decision_function m0 Xfix = .error .notFitted :=
  mcd_C2 (1/10) true false none none m0 (by with_unfolding_all decide) Xfix

/-- C3: on an `MCD` instance on which `fit` has never been called, every one
of the seven fitted-attribute accessors fails with `NotFitted` instead of
returning a value. -/
theorem mcd_C3 (c : ℚ) (sp ac : Bool) (sf : Option ℚ) (rs : Option ℕ) (m : MCD)
    (h : MCD.init c sp ac sf rs = .ok m) :
    m.raw_location_ = .error .notFitted ∧ m.raw_covariance_ = .error .notFitted ∧
      m.raw_support_ = .error .notFitted ∧ m.location_ = .error .notFitted ∧
      m.covariance_ = .error .notFitted ∧ m.precision_ = .error .notFitted ∧
      m.support_ = .error .notFitted := by
  unfold MCD.init at h
  split at h
  · injection h with h
    subst h
    exact ⟨rfl, rfl, rfl, rfl, rfl, rfl, rfl⟩
  · exact absurd h (by simp)

/-- Witness for C3 at the concrete unfitted instance `m0`. -/
theorem mcd_C3_witness :
    m0.raw_location_ = .error .notFitted ∧ m0.raw_covariance_ = .error .notFitted ∧
      m0.raw_support_ = .error .notFitted ∧ m0.location_ = .error .notFitted ∧
      m0.covariance_ = .error .notFitted ∧ m0.precision_ = .error .notFitted ∧
      m0.support_ = .error .notFitted :=
  mcd_C3 (1/10) true false none none m0 (by with_unfolding_all decide)

/-- C5: constructing an `MCD` with a contamination outside the open interval
(0, 1/2) fails with `InvalidParameter`, and every contamination strictly
inside the interval is accepted. -/
theorem mcd_C5 (c : ℚ) (sp ac : Bool) (sf : Option ℚ) (rs : Option ℕ) :
    (¬(0 < c ∧ c < 1 / 2) → MCD.init c sp ac sf rs = .error .invalidParameter) ∧
      ((0 < c ∧ c < 1 / 2) → ∃ m, MCD.init c sp ac sf rs = .ok m) := by
  constructor
  · intro hc
    unfold MCD.init
    rw [if_neg hc]
  · intro hc
    exact ⟨_, by unfold MCD.init; rw [if_pos hc]⟩

/-- Witness for C5: contamination 6/10 is rejected with `InvalidParameter`
and contamination 1/10 is accepted. -/
theorem mcd_C5_witness :
    MCD.init (6/10) true false none none = .error .invalidParameter ∧
      ∃ m, MCD.init (1/10) true false none none = .ok m :=
  ⟨(mcd_C5 (6/10) true false none none).1 (by norm_num),
    (mcd_C5 (1/10) true false none none).2 (by norm_num)⟩

/-- C6: fitting is deterministic. Two instances that share all five
hyperparameters (contamination, store_precision, assume_centered,
support_fraction, and the random seed) produce identical results —
in particular identical raw location, covariance, support, and decision
scores — when fit on the same training data. -/
theorem mcd_C6 (m₁ m₂ : MCD) (X : List (List PyFloat))
    (hc : m₁.contamination = m₂.contamination)
    (hsp : m₁.store_precision = m₂.store_precision)
    (hac : m₁.assume_centered = m₂.assume_centered)
    (hsf : m₁.support_fraction = m₂.support_fraction)
    (hrs : m₁.random_state = m₂.random_state) :
    MCD.fit m₁ X = MCD.fit m₂ X := by
  obtain ⟨c₁, sp₁, ac₁, sf₁, rs₁, d₁, ds₁, t₁, l₁⟩ := m₁
  obtain ⟨c₂, sp₂, ac₂, sf₂, rs₂, d₂, ds₂, t₂, l₂⟩ := m₂
  dsimp only [] at hc hsp hac hsf hrs
  subst hc hsp hac hsf hrs
  rfl

/-- Witness for C6: the unfitted `m0` and the previously fitted `m1` share
their hyperparameters, so fitting each on `Xfix` gives identical states. -/
theorem mcd_C6_witness : MCD.fit m0 Xfix = MCD.fit m1 Xfix :=
  mcd_C6 m0 m1 Xfix rfl rfl rfl rfl rfl

/-- C7: `fit` fully discards any previously fitted state: fitting any
instance gives exactly the result of fitting a fresh instance carrying the
same hyperparameters and no fitted attributes, so the outcome depends only
on the hyperparameters and the new training data. -/
theorem mcd_C7 (m : MCD) (X : List (List PyFloat)) :
    MCD.fit m X =
      MCD.fit
        ⟨m.contamination, m.store_precision, m.assume_centered, m.support_fraction,
          m.random_state, none, none, none, none⟩ X :=
  rfl

/-- C10: on a fitted instance, `decision_function` runs the same input
validation `fit` runs: whenever `check_array` rejects an input, both
`decision_function` and `fit` fail with that same error, which is always the
input-validation error `InvalidInput`, and no scores are produced.
(`decision_function` performs no state update at all in the source, so the
fitted state is untouched by construction.) -/
theorem mcd_C10 (m : MCD) (X : List (List PyFloat)) (e : PyError)
    (s : List ℚ) (t : ℚ) (lab : List ℕ)
    (hds : m.decision_scores_ = some s) (ht : m.threshold_ = some t)
    (hl : m.labels_ = some lab) (hca : check_array X = .error e) :
    MCD.decision_function m X = .error e ∧ MCD.fit m X = .error e ∧
      e = .invalidInput := by
  refine ⟨?_, ?_, check_array_error hca⟩
  · simp only [MCD.decision_function, hds, ht, hl, hca]
  · simp only [MCD.fit, hca]

/-- Witness for C10: scoring (or refitting) the fitted `m1` on a matrix
holding a NaN entry fails with `InvalidInput`. -/
theorem mcd_C10_witness :
    MCD.decision_function m1 Xbad = .error .invalidInput ∧
      MCD.fit m1 Xbad = .error .invalidInput ∧
      PyError.invalidInput = .invalidInput :=
  mcd_C10 m1 Xbad .invalidInput [6/7, 3/14, 27/14] (27/14) [0, 0, 0] rfl rfl rfl
    (by with_unfolding_all decide)

/-- C1: after a successful `fit` on `X`, calling `decision_function` on that
same `X` returns exactly the stored `decision_scores_` vector. -/
theorem mcd_C1 (m mf : MCD) (X : List (List PyFloat)) (s : List ℚ)
    (hfit : MCD.fit m X = .ok mf) (hs : mf.decision_scores_ = some s) :
    MCD.decision_function mf X = .ok s := by
  unfold MCD.fit at hfit
  split at hfit
  · exact absurd hfit (by simp)
  next Xv heq =>
    split at hfit
    · exact absurd hfit (by simp)
    next det heq2 =>
      injection hfit with hfit
      obtain ⟨hnf, hdist⟩ := MinCovDet.fit_ok heq2
      obtain ⟨-, -, -, hrect⟩ := check_array_ok heq
      subst hfit
      dsimp only [] at hs
      injection hs with hs
      subst hs
      simp only [MCD.decision_function, heq]
      rw [if_pos]
      · rw [hdist]
      · intro row hrow
        rw [hnf]
        exact hrect row hrow

/-- Witness for C1: scoring `m1` (the state fit produced from `Xfix`) on
`Xfix` returns the stored decision scores. -/
theorem mcd_C1_witness : MCD.decision_function m1 Xfix = .ok [6/7, 3/14, 27/14] :=
  mcd_C1 m0 m1 Xfix [6/7, 3/14, 27/14] (by with_unfolding_all decide) rfl

/-- C8: scoring a fitted detector on an accepted matrix whose row width
differs from the training width fails with `DimensionMismatch` and returns
no scores. -/
theorem mcd_C8 (m mf : MCD) (X Xnew : List (List PyFloat)) (Xv : List (List ℚ))
    (d : FittedEstimator) (hfit : MCD.fit m X = .ok mf) (hd : mf.detector_ = some d)
    (hca : check_array Xnew = .ok Xv)
    (hw : (Xv.headD []).length ≠ d.n_features_in_) :
    MCD.decision_function mf Xnew = .error .dimensionMismatch := by
  unfold MCD.fit at hfit
  split at hfit
  · exact absurd hfit (by simp)
  next Xv0 heq =>
    split at hfit
    · exact absurd hfit (by simp)
    next det heq2 =>
      injection hfit with hfit
      subst hfit
      dsimp only [] at hd
      injection hd with hd
      subst hd
      obtain ⟨-, hlen, -, hrect⟩ := check_array_ok hca
      simp only [MCD.decision_function, hca]
      rw [if_neg]
      intro hall
      cases Xv with
      | nil => simp at hlen
      | cons r t =>
        exact hw (by simpa using hall r (by simp))

/-- Witness for C8: scoring the 1-feature fitted detector `m1` on a
two-column matrix fails with `DimensionMismatch`. -/
theorem mcd_C8_witness : MCD.decision_function m1 Xwide = .error .dimensionMismatch :=
  mcd_C8 m0 m1 Xfix Xwide [[1, 2]] detFix (by with_unfolding_all decide) rfl
    (by with_unfolding_all decide) (by with_unfolding_all decide)

section QuadraticForm

/-- The dot product of the zero vector with anything vanishes. -/
theorem dot_replicate_zero (k : ℕ) (y : List ℚ) : dot (List.replicate k 0) y = 0 := by
  induction k generalizing y with
  | zero => simp [dot]
  | succ k ih =>
    cases y with
    | nil => simp [dot]
    | cons b ys =>
      simp only [List.replicate_succ, dot, List.zipWith_cons_cons, List.sum_cons, zero_mul,
        zero_add]
      exact ih ys

/-- Subtracting a vector from itself gives the zero vector. -/
theorem rowSub_self (x : List ℚ) : rowSub x x = List.replicate x.length 0 := by
  induction x with
  | nil => rfl
  | cons a xs ih =>
    simp only [rowSub, List.zipWith_cons_cons, sub_self, List.length_cons,
      List.replicate_succ]
    rw [← rowSub, ih]

/-- For equal-length vectors, the difference is the zero vector exactly when
the vectors are equal. -/
theorem rowSub_eq_replicate_iff {x y : List ℚ} (h : x.length = y.length) :
    rowSub x y = List.replicate x.length 0 ↔ x = y := by
  induction x generalizing y with
  | nil =>
    cases y with
    | nil => simp [rowSub]
    | cons b ys => simp at h
  | cons a xs ih =>
    cases y with
    | nil => simp at h
    | cons b ys =>
      simp only [List.length_cons, Nat.succ.injEq] at h
      simp only [rowSub, List.zipWith_cons_cons, List.length_cons, List.replicate_succ,
        List.cons.injEq, sub_eq_zero]
      rw [← rowSub]
      exact and_congr Iff.rfl (ih h)

/-- C9: the decision score (squared Mahalanobis distance) of any point of the
training dimensionality, under a fitted estimator whose precision matrix is
positive definite (covariance nonsingular), is non-negative, and it is zero
exactly when the point coincides with the fitted location. -/
theorem mcd_C9 (d : FittedEstimator) (x : List ℚ)
    (hP : PosDefMat d.n_features_in_ d.precision_)
    (hloc : d.location_.length = d.n_features_in_)
    (hx : x.length = d.n_features_in_) :
    0 ≤ mahalanobis x d.location_ d.precision_ ∧
      (mahalanobis x d.location_ d.precision_ = 0 ↔ x = d.location_) := by
  by_cases hxl : x = d.location_
  · have h0 : mahalanobis d.location_ d.location_ d.precision_ = 0 := by
      rw [mahalanobis, rowSub_self, quadForm, dot_replicate_zero]
    rw [hxl, h0]
    simp [hxl]
  · have hlen : (rowSub x d.location_).length = d.n_features_in_ := by
      simp only [rowSub, List.length_zipWith, hx, hloc, min_self]
    have hne : rowSub x d.location_ ≠ List.replicate d.n_features_in_ 0 := by
      rw [← hx]
      exact fun hcon => hxl ((rowSub_eq_replicate_iff (hx.trans hloc.symm)).mp hcon)
    have hpos := hP _ hlen hne
    rw [mahalanobis]
    exact ⟨hpos.le, by simp [hpos.ne.symm, hxl]⟩

/-- Witness for C9: for the 1-feature estimator with location 0 and identity
precision, the score of the point 3 is non-negative and vanishes only at the
location. -/
theorem mcd_C9_witness :
    0 ≤ mahalanobis [3] [0] [[1]] ∧
      (mahalanobis [3] [0] [[1]] = 0 ↔ ([3] : List ℚ) = [0]) :=
  mcd_C9 ⟨1, [0], [[1]], [true], [0], [[1]], [[1]], [true], [0]⟩ [3]
    (by
      intro v hv hne
      obtain ⟨a, rfl⟩ := List.length_eq_one.mp hv
      have ha : a ≠ 0 := by simpa using hne
      have hq : quadForm [[1]] [a] = a * a := by
        simp [quadForm, dot, matVec]
      rw [hq]
      exact mul_self_pos.mpr ha)
    rfl rfl

end QuadraticForm

section Thresholding

/-- A duplicate-free list sorted by ≤ is sorted strictly. -/
theorem sorted_lt_of_nodup {l : List ℚ} (hs : l.Sorted (fun a b => a ≤ b))
    (hnd : l.Nodup) : l.Sorted (fun a b => a < b) :=
  (List.Pairwise.and hs hnd).imp fun h => lt_of_le_of_ne h.1 h.2

/-- In a strictly sorted list, the entries strictly above the `k`-th order
statistic (1-indexed) are exactly the `length - k` entries after position
`k`, and the order statistic itself is a member of the list. -/
theorem countP_gt_orderstat {S : List ℚ} {k : ℕ} {t : ℚ}
    (hS : S.Sorted (fun a b => a < b)) (hk1 : 1 ≤ k) (hk2 : k ≤ S.length)
    (ht : t = S.getD (k - 1) 0) :
    S.countP (fun a => decide (t < a)) = S.length - k ∧ t ∈ S := by
  have hkl : k - 1 < S.length := by omega
  have hpw := List.pairwise_iff_getElem.mp hS
  have htg : t = S[k - 1] := by
    rw [ht, List.getD_eq_getElem?_getD, List.getElem?_eq_getElem hkl, Option.getD_some]
  refine ⟨?_, htg ▸ List.getElem_mem hkl⟩
  have h1 : (S.take k).countP (fun a => decide (t < a)) = 0 := by
    rw [List.countP_eq_zero]
    intro a ha
    obtain ⟨i, hi, rfl⟩ := List.mem_iff_getElem.mp ha
    have hik : i < k := by
      rw [List.length_take] at hi
      omega
    simp only [List.getElem_take, decide_eq_true_eq, not_lt]
    rcases Nat.lt_or_ge i (k - 1) with hlt | hge
    · rw [htg]
      exact (hpw i (k - 1) (by omega) hkl hlt).le
    · have hieq : i = k - 1 := by omega
      subst hieq
      rw [htg]
  have h2 : (S.drop k).countP (fun a => decide (t < a)) = (S.drop k).length := by
    rw [List.countP_eq_length]
    intro a ha
    obtain ⟨j, hj, rfl⟩ := List.mem_iff_getElem.mp ha
    rw [List.length_drop] at hj
    simp only [List.getElem_drop, decide_eq_true_eq]
    rw [htg]
    exact hpw (k - 1) (k + j) hkl (by omega) (by omega)
  calc S.countP (fun a => decide (t < a))
      = (S.take k ++ S.drop k).countP (fun a => decide (t < a)) := by
        rw [List.take_append_drop]
    _ = S.length - k := by
        rw [List.countP_append, h1, h2, List.length_drop]
        omega

/-- Arithmetic of the order-statistic index: for `0 < c < 1/2` and `n ≥ 1`,
the index `k = ceil(n(1-c))` lies in `[1, n]` and `n - k = floor(n·c)`. -/
theorem orderstat_index_arith (n : ℕ) (c : ℚ) (hn : 0 < n) (hc0 : 0 < c)
    (hc1 : c < 1 / 2) :
    1 ≤ (⌈(n : ℚ) * (1 - c)⌉).toNat ∧ (⌈(n : ℚ) * (1 - c)⌉).toNat ≤ n ∧
      n - (⌈(n : ℚ) * (1 - c)⌉).toNat = (⌊(n : ℚ) * c⌋).toNat := by
  have he : (n : ℚ) * (1 - c) = -((n : ℚ) * c) + ((n : ℤ) : ℚ) := by
    push_cast
    ring
  have hceil : ⌈(n : ℚ) * (1 - c)⌉ = -⌊(n : ℚ) * c⌋ + n := by
    rw [he, Int.ceil_add_int, Int.ceil_neg]
  have hf0 : 0 ≤ ⌊(n : ℚ) * c⌋ := Int.floor_nonneg.mpr (by positivity)
  have hfn : ⌊(n : ℚ) * c⌋ < n := by
    rw [Int.floor_lt]
    have hn1 : (1 : ℚ) ≤ (n : ℚ) := by exact_mod_cast hn
    push_cast
    nlinarith
  rw [hceil]
  omega

/-- The nearest-integer rounding of a rational differs from its floor by at
most one. -/
theorem round_sub_floor_le_one (x : ℚ) : (round x - ⌊x⌋).natAbs ≤ 1 := by
  have h1 : ⌊x⌋ ≤ round x := by
    rw [round_eq]
    exact Int.floor_mono (by linarith)
  have h2 : round x ≤ ⌊x⌋ + 1 := by
    rw [round_eq]
    have hmono := Int.floor_mono (show x + 1 / 2 ≤ x + 1 by linarith)
    rwa [Int.floor_add_one] at hmono
  omega

end Thresholding

/-- C4: after a successful `fit` with contamination `c` in (0, 1/2) whose `n`
training decision scores are pairwise distinct (the tie-break carve-out of
the claim), `threshold_` is the decision score at the `ceil(n(1-c))`-th
order statistic of `decision_scores_` and is itself one of the scores, each
label is 1 exactly when the corresponding score strictly exceeds the
threshold, and the number of samples labeled 1 is `floor(n·c)`, which is
within one of `round(n·c)`. -/
theorem mcd_C4 (m mf : MCD) (X : List (List PyFloat)) (s : List ℚ) (t : ℚ)
    (lab : List ℕ) (hfit : MCD.fit m X = .ok mf)
    (hs : mf.decision_scores_ = some s) (ht : mf.threshold_ = some t)
    (hl : mf.labels_ = some lab) (hc0 : 0 < m.contamination)
    (hc1 : m.contamination < 1 / 2) (hnd : s.Nodup) :
    t = (List.insertionSort (fun a b => a ≤ b) s).getD
        ((⌈(s.length : ℚ) * (1 - m.contamination)⌉).toNat - 1) 0 ∧
      t ∈ s ∧
      lab = s.map (fun sc => if t < sc then 1 else 0) ∧
      lab.count 1 = (⌊(s.length : ℚ) * m.contamination⌋).toNat ∧
      (round ((s.length : ℚ) * m.contamination) -
          ⌊(s.length : ℚ) * m.contamination⌋).natAbs ≤ 1 := by
  unfold MCD.fit at hfit
  split at hfit
  · exact absurd hfit (by simp)
  next Xv heq =>
    split at hfit
    · exact absurd hfit (by simp)
    next det heq2 =>
      injection hfit with hfit
      subst hfit
      dsimp only [] at hs ht hl
      injection hs with hs
      injection ht with ht
      injection hl with hl
      subst hs
      subst ht
      subst hl
      obtain ⟨-, hXlen, -, -⟩ := check_array_ok heq
      obtain ⟨-, hdist⟩ := MinCovDet.fit_ok heq2
      have hn : 0 < det.dist_.length := by
        rw [hdist, List.length_map]
        exact hXlen
      obtain ⟨hk1, hk2, hsub⟩ :=
        orderstat_index_arith det.dist_.length m.contamination hn hc0 hc1
      have hperm : List.Perm (List.insertionSort (fun a b => a ≤ b) det.dist_) det.dist_ :=
        List.perm_insertionSort _ _
      have hSnd : (List.insertionSort (fun a b => a ≤ b) det.dist_).Nodup :=
        hperm.symm.nodup hnd
      have hSlen : (List.insertionSort (fun a b => a ≤ b) det.dist_).length
          = det.dist_.length := hperm.length_eq
      have hSlt : (List.insertionSort (fun a b => a ≤ b) det.dist_).Sorted
          (fun a b => a < b) :=
        sorted_lt_of_nodup (List.sorted_insertionSort _ _) hSnd
      have htdef : (process_decision_scores det.dist_ m.contamination).1
          = (List.insertionSort (fun a b => a ≤ b) det.dist_).getD
              ((⌈(det.dist_.length : ℚ) * (1 - m.contamination)⌉).toNat - 1) 0 := rfl
      obtain ⟨hcount, hmem⟩ :=
        countP_gt_orderstat hSlt hk1 (by rw [hSlen]; exact hk2) htdef
      refine ⟨rfl, hperm.mem_iff.mp hmem, rfl, ?_, round_sub_floor_le_one _⟩
      have hmap : ((det.dist_.map
            (fun sc => if (process_decision_scores det.dist_ m.contamination).1 < sc
              then (1 : ℕ) else 0)).count 1)
          = det.dist_.countP
              (fun sc =>
                decide ((process_decision_scores det.dist_ m.contamination).1 < sc)) := by
        rw [List.count_eq_countP, List.countP_map]
        apply List.countP_congr
        intro a _
        by_cases hlt : (process_decision_scores det.dist_ m.contamination).1 < a <;>
          simp [hlt]
      have hlab : (process_decision_scores det.dist_ m.contamination).2
          = det.dist_.map
              (fun sc => if (process_decision_scores det.dist_ m.contamination).1 < sc
                then (1 : ℕ) else 0) := rfl
      rw [hlab, hmap, ← hperm.countP_eq, hcount, hSlen, hsub]

/-- Witness for C4 on the concrete fit of `m0` on `Xfix`: three distinct
scores, contamination 1/10, threshold 27/14 (the third order statistic),
labels all 0, and zero samples flagged. -/
theorem mcd_C4_witness :
    (27/14 : ℚ) = (List.insertionSort (fun a b => a ≤ b) [6/7, 3/14, 27/14]).getD
        ((⌈(([6/7, 3/14, 27/14] : List ℚ).length : ℚ) * (1 - m0.contamination)⌉).toNat - 1) 0 ∧
      (27/14 : ℚ) ∈ ([6/7, 3/14, 27/14] : List ℚ) ∧
      ([0, 0, 0] : List ℕ) =
        ([6/7, 3/14, 27/14] : List ℚ).map (fun sc => if (27/14 : ℚ) < sc then 1 else 0) ∧
      ([0, 0, 0] : List ℕ).count 1 =
        (⌊(([6/7, 3/14, 27/14] : List ℚ).length : ℚ) * m0.contamination⌋).toNat ∧
      (round ((([6/7, 3/14, 27/14] : List ℚ).length : ℚ) * m0.contamination) -
          ⌊(([6/7, 3/14, 27/14] : List ℚ).length : ℚ) * m0.contamination⌋).natAbs ≤ 1 :=
  mcd_C4 m0 m1 Xfix [6/7, 3/14, 27/14] (27/14) [0, 0, 0]
    (by with_unfolding_all decide) rfl rfl rfl (by norm_num [m0]) (by norm_num [m0])
    (by with_unfolding_all decide)

end Pyod
